import Mathlib

/-!
Verification of the `DataProcessor` pipeline of `src/data_processor.py`
(market-research repository).

The pandas DataFrame pipeline is shallowly embedded as pure functions over
lists of typed records.  Conventions used throughout:

* pandas floats are modelled as `ℚ`; nullable cells (`NaN`) as `Option ℚ`
  (or `Option String`, `Option Date`).
* `Volatility_20` is the one quantity of the source that is irrational
  (pandas stores `std * sqrt 252 * 100`).  The embedding stores its square,
  `volatility_20_sq = var * 252 * 100^2`, in exact rational arithmetic:
  `x ↦ x^2` is a definedness- and order-preserving bijection on `[0, ∞)`,
  so nullability, zero-ness and sign of the source column are represented
  faithfully, and columns that merely copy the column are embedded as
  copying the stored values.  The one aggregate over the column, the
  sector summary's mean, is embedded in `ℝ` as the mean of the square
  roots of the stored values (the actual volatilities), since the mean
  does not commute with squaring.
* calendar dates are `Date` records `(y, m, d)` ordered lexicographically;
  pandas `Period` keys are embedded as the period's start date
  (`to_period(p).to_timestamp()` in the source).
* `datetime.now().year` (the processing year used for YTD baselines) is an
  explicit parameter `cy` of the embedding.
-/

set_option allowUnsafeReducibility true in
attribute [semireducible] Rat.add Rat.mul Rat.sub Rat.inv Rat.ofScientific

/-- A calendar date, as pandas `Timestamp` at day resolution. -/
structure Date where
  y : Nat
  m : Nat
  d : Nat
deriving DecidableEq, Repr

/-- Lexicographic order on dates (pandas datetime order). -/
def Date.le (a b : Date) : Prop :=
  a.y < b.y ∨ (a.y = b.y ∧ (a.m < b.m ∨ (a.m = b.m ∧ a.d ≤ b.d)))

instance : LE Date := ⟨Date.le⟩

instance Date.decLE : DecidableRel Date.le := fun _ _ =>
  inferInstanceAs (Decidable (_ ∨ _))

instance (a b : Date) : Decidable (a ≤ b) := Date.decLE a b

theorem Date.le_total (a b : Date) : Date.le a b ∨ Date.le b a := by
  unfold Date.le; omega

theorem Date.le_trans {a b c : Date} (h1 : Date.le a b) (h2 : Date.le b c) :
    Date.le a c := by
  unfold Date.le at h1 h2 ⊢; omega

theorem Date.le_antisymm {a b : Date} (h1 : Date.le a b) (h2 : Date.le b a) :
    a = b := by
  obtain ⟨y, m, d⟩ := a
  obtain ⟨y2, m2, d2⟩ := b
  unfold Date.le at h1 h2
  simp only at h1 h2
  simp only [Date.mk.injEq]
  omega

/-- Days since 0000-03-01 in the proleptic Gregorian calendar
(civil-from-days arithmetic, `Nat` version; valid for years ≥ 1, which
covers every date a pandas `Timestamp` can hold). `dayNumber ⟨1970,1,1⟩`
is `719468` and is a Thursday (`≡ 1 [MOD 7]`). -/
def Date.dayNumber (dt : Date) : Nat :=
  let y := if dt.m ≤ 2 then dt.y - 1 else dt.y
  let era := y / 400
  let yoe := y % 400
  let mp := (dt.m + 9) % 12
  let doy := (153 * mp + 2) / 5 + dt.d - 1
  let doe := yoe * 365 + yoe / 4 - yoe / 100 + doy
  era * 146097 + doe

/-- Inverse of `Date.dayNumber` (days-to-civil arithmetic). -/
def dateOfDayNumber (z : Nat) : Date :=
  let era := z / 146097
  let doe := z % 146097
  let yoe := (doe - doe / 1460 + doe / 36524 - doe / 146096) / 365
  let y := yoe + era * 400
  let doy := doe - (365 * yoe + yoe / 4 - yoe / 100)
  let mp := (5 * doy + 2) / 153
  let d := doy - (153 * mp + 2) / 5 + 1
  let m := if mp < 10 then mp + 3 else mp - 9
  ⟨if m ≤ 2 then y + 1 else y, m, d⟩

/-- Aggregation periods accepted by `aggregate_by_period`
(pandas period strings 'D', 'W', 'M', 'Q'). -/
inductive Period where
  | D | W | M | Q
deriving DecidableEq, Repr

/-- `df['Date'].dt.to_period(p)` followed by `.dt.to_timestamp()`:
the period of a date, represented by the period's start date.
pandas weekly periods are 'W-SUN' (Monday-to-Sunday weeks), whose
`to_timestamp` is the Monday; monthly periods start on day 1; quarterly
periods start on the first day of the quarter's first month. -/
def periodKey (p : Period) (dt : Date) : Date :=
  match p with
  | Period.D => dt
  | Period.W => dateOfDayNumber (7 * ((dt.dayNumber + 2) / 7) - 2)
  | Period.M => ⟨dt.y, dt.m, 1⟩
  | Period.Q => ⟨dt.y, 3 * ((dt.m - 1) / 3) + 1, 1⟩

/-- A raw input row (`PriceRecord`): the columns of the raw DataFrame that
the pipeline reads.  `symbol`, `date`, `close`, `sector` and `market_cap`
are nullable in the source; `open/high/low/sub_industry` are never read by
the pipeline and are omitted. -/
structure RawRow where
  symbol : Option String
  date : Option Date
  security : String
  sector : Option String
  close : Option ℚ
  volume : ℚ
  market_cap : Option ℚ
deriving DecidableEq, Repr

/-- A cleaned row: output schema of `DataProcessor.clean_data` for a raw
table carrying the full input schema (critical cells non-null, `Sector`
null-filled with "Unknown"). -/
structure CRow where
  symbol : String
  date : Date
  security : String
  sector : String
  close : ℚ
  volume : ℚ
  market_cap : Option ℚ
deriving DecidableEq, Repr

/-- A returns-annotated row: output schema of
`DataProcessor.calculate_returns`.  `volatility_20_sq` stores the square
of the source's `Volatility_20` (see the header comment). -/
structure RRow where
  symbol : String
  date : Date
  security : String
  sector : String
  close : ℚ
  volume : ℚ
  market_cap : Option ℚ
  daily_return : Option ℚ
  cumulative_return : ℚ
  ytd_return : ℚ
  ma_20 : ℚ
  volatility_20_sq : Option ℚ
deriving DecidableEq, Repr

/-- A fundamentals-annotated ("processed") row: output schema of
`DataProcessor.calculate_fundamentals`; `market_cap` is now non-null. -/
structure FRow where
  symbol : String
  date : Date
  security : String
  sector : String
  close : ℚ
  volume : ℚ
  market_cap : ℚ
  market_cap_billions : ℚ
  daily_return : Option ℚ
  cumulative_return : ℚ
  ytd_return : ℚ
  ma_20 : ℚ
  volatility_20_sq : Option ℚ
deriving DecidableEq, Repr

/-- An aggregated row: output schema of `DataProcessor.aggregate_by_period`.
The source's `.agg` dictionary keeps exactly these columns: `Daily_Return`
and `MA_20` are NOT in the dictionary and are dropped. -/
structure ARow where
  symbol : String
  date : Date
  security : String
  sector : String
  close : ℚ
  volume : ℚ
  market_cap : ℚ
  market_cap_billions : ℚ
  cumulative_return : ℚ
  ytd_return : ℚ
  volatility_20_sq : Option ℚ
deriving DecidableEq, Repr

/-- An animation row: `ARow` plus the `Year_Month` display label added by
`DataProcessor.prepare_animation_data`. -/
structure AnimRow where
  symbol : String
  date : Date
  security : String
  sector : String
  close : ℚ
  volume : ℚ
  market_cap : ℚ
  market_cap_billions : ℚ
  cumulative_return : ℚ
  ytd_return : ℚ
  volatility_20_sq : Option ℚ
  year_month : String
deriving DecidableEq, Repr

/-- A sector-summary row: output schema of
`DataProcessor.get_sector_summary`.  `avg_volatility` is the skip-null
mean of the ACTUAL volatilities — the square roots of the stored squared
values — taken in `ℝ`; `none` embeds pandas' `NaN` mean of an all-null
column. -/
structure SRow where
  sector : String
  stock_count : Nat
  total_market_cap : ℚ
  avg_ytd_return : ℚ
  avg_volatility : Option ℝ
  market_cap_billions : ℚ

/-- Mean of a list of rationals (`pandas` mean of a non-empty window;
`0` for the empty list, which the pipeline never evaluates). -/
def meanQ (l : List ℚ) : ℚ := l.sum / (l.length : ℚ)

/-- Sample variance with `ddof = 1` (the variance under pandas
`rolling(...).std()`); meaningful for lists of length ≥ 2. -/
def sampleVar (l : List ℚ) : ℚ :=
  ((l.map (fun x => (x - meanQ l) ^ 2)).sum) / ((l.length : ℚ) - 1)

/-- pandas median of a list of (non-null) rationals: sort, take the middle
element, or the mean of the two middle elements for even length
(`0` for the empty list, which the pipeline never evaluates). -/
def medianQ (l : List ℚ) : ℚ :=
  let s := l.insertionSort (· ≤ ·)
  let n := s.length
  if n = 0 then 0
  else if n % 2 = 1 then s.getD (n / 2) 0
  else (s.getD (n / 2 - 1) 0 + s.getD (n / 2) 0) / 2

/-- The trailing window `l[max(0, i-19) .. i]` of up to 20 elements used by
`rolling(window=20, min_periods=1)`. -/
def trail20 {α : Type} (l : List α) (i : Nat) : List α :=
  (l.take (i + 1)).drop (i + 1 - 20)

/-- The key of pandas `drop_duplicates(subset=['Date', 'Symbol'])`. -/
def cleanKey (r : CRow) : String × Date := (r.symbol, r.date)

/-- Two strings, compared character-lexicographically.  `String.lt` is
defined in core as exactly this relation on the underlying character
lists (`String.lt_iff_toList_lt`); the list form is used so that concrete
tables evaluate inside `decide`. -/
def strLT (a b : String) : Prop := a.data < b.data

instance strLT.dec : DecidableRel strLT := fun _ _ =>
  inferInstanceAs (Decidable (_ < _))

theorem String.eq_of_data_eq {a b : String} (h : a.data = b.data) :
    a = b := by
  cases a; cases b; exact congrArg String.mk h

/-- Row order of `df.sort_values(['Symbol', 'Date'])`: symbol ascending
(string order), then date ascending. -/
def rowLE (a b : CRow) : Prop :=
  strLT a.symbol b.symbol ∨ (a.symbol = b.symbol ∧ Date.le a.date b.date)

instance rowLE.dec : DecidableRel rowLE := fun _ _ =>
  inferInstanceAs (Decidable (_ ∨ _))

instance rowLE.total : IsTotal CRow rowLE where
  total a b := by
    unfold rowLE strLT
    rcases lt_trichotomy a.symbol.data b.symbol.data with h | h | h
    · exact Or.inl (Or.inl h)
    · rcases Date.le_total a.date b.date with hd | hd
      · exact Or.inl (Or.inr ⟨String.eq_of_data_eq h, hd⟩)
      · exact Or.inr (Or.inr ⟨(String.eq_of_data_eq h).symm, hd⟩)
    · exact Or.inr (Or.inl h)

instance rowLE.trans : IsTrans CRow rowLE where
  trans a b c h1 h2 := by
    unfold rowLE strLT at h1 h2 ⊢
    rcases h1 with h1 | ⟨h1e, h1d⟩
    · rcases h2 with h2 | ⟨h2e, _⟩
      · exact Or.inl (lt_trans h1 h2)
      · exact Or.inl (h2e ▸ h1)
    · rcases h2 with h2 | ⟨h2e, h2d⟩
      · exact Or.inl (h1e ▸ h2)
      · exact Or.inr ⟨h1e.trans h2e, Date.le_trans h1d h2d⟩

/-- `df.dropna(subset=['Close', 'Symbol', 'Date'])` followed by
`df['Sector'].fillna('Unknown')`: the rows whose critical cells are all
non-null, with null sectors replaced by the literal `"Unknown"`. -/
def keptRows (raw : List RawRow) : List CRow :=
  raw.filterMap (fun r =>
    match r.symbol, r.date, r.close with
    | some s, some dt, some c =>
        some ⟨s, dt, r.security, r.sector.getD "Unknown", c, r.volume,
              r.market_cap⟩
    | _, _, _ => none)

/-- `df.drop_duplicates(subset=['Date', 'Symbol'], keep='last')`: a row is
kept exactly when no later row of the list shares its (symbol, date) key. -/
def keepLast : List CRow → List CRow
  | [] => []
  | r :: rest =>
      (if rest.any (fun x => cleanKey x == cleanKey r) then [] else [r])
        ++ keepLast rest

/-- `DataProcessor.clean_data` (source lines 34-57): drop rows with null
critical cells, fill null sectors, collapse duplicate (symbol, date) keys
keeping the last occurrence, sort by symbol then date. -/
def clean_data (raw : List RawRow) : List CRow :=
  (keepLast (keptRows raw)).insertionSort rowLE

/-- Placeholder row for total `getD` access; never selected at in-range
indices. -/
def dummyC : CRow := ⟨"", ⟨0, 0, 0⟩, "", "", 0, 0, none⟩

/-- Placeholder annotated row for total `getD` access. -/
def dummyR : RRow := ⟨"", ⟨0, 0, 0⟩, "", "", 0, 0, none, none, 0, 0, 0, none⟩

/-- `groupby('Symbol')['Close'].pct_change()` at position `i` of a group:
null on the group's first row, `close[i]/close[i-1] - 1` afterwards. -/
def dailyAt (closes : List ℚ) (i : Nat) : Option ℚ :=
  if i = 0 then none
  else some (closes.getD i 0 / closes.getD (i - 1) 0 - 1)

/-- The whole `Daily_Return` series of one group. -/
def dailyList (closes : List ℚ) : List (Option ℚ) :=
  (List.range closes.length).map (dailyAt closes)

/-- `(x / x.iloc[0] - 1) * 100` at position `i` of a group. -/
def cumulativeAt (closes : List ℚ) (i : Nat) : ℚ :=
  (closes.getD i 0 / closes.getD 0 0 - 1) * 100

/-- The YTD baseline of a group: the close of the first row dated on or
after January 1 of the processing year `cy`, if any
(`group[group['Date'] >= year_start]` then `.iloc[0]['Close']`). -/
def ytdBase (cy : Nat) (g : List CRow) : Option ℚ :=
  ((g.filter (fun r => decide (Date.le ⟨cy, 1, 1⟩ r.date))).head?).map
    (fun r => r.close)

/-- `YTD_Return` at position `i` of a group: percent change against the
YTD baseline when it exists, otherwise the group's cumulative return. -/
def ytdAt (cy : Nat) (g : List CRow) (closes : List ℚ) (i : Nat) : ℚ :=
  match ytdBase cy g with
  | some b => (closes.getD i 0 / b - 1) * 100
  | none => cumulativeAt closes i

/-- `Volatility_20` squared at position `i` of a group: pandas
`rolling(window=20, min_periods=1).std()` collects the non-null
`Daily_Return` cells of the trailing 20-cell window and, having `ddof = 1`,
is null (NaN) whenever fewer than 2 such cells exist; the source then
multiplies by `sqrt 252 * 100`, so its square is `var * 252 * 100^2`. -/
def volSqAt (closes : List ℚ) (i : Nat) : Option ℚ :=
  let obs := (trail20 (dailyList closes) i).filterMap id
  if 2 ≤ obs.length then some (sampleVar obs * 252 * 10000) else none

/-- The annotated row at position `i` of one symbol group `g`
(rows of one symbol, date-ascending). -/
def annotRow (cy : Nat) (g : List CRow) (i : Nat) : RRow :=
  let r := g.getD i dummyC
  let closes := g.map (fun x => x.close)
  { symbol := r.symbol, date := r.date, security := r.security,
    sector := r.sector, close := r.close, volume := r.volume,
    market_cap := r.market_cap,
    daily_return := dailyAt closes i,
    cumulative_return := cumulativeAt closes i,
    ytd_return := ytdAt cy g closes i,
    ma_20 := meanQ (trail20 closes i),
    volatility_20_sq := volSqAt closes i }

/-- All annotated rows of one symbol group. -/
def annotateGroup (cy : Nat) (g : List CRow) : List RRow :=
  (List.range g.length).map (annotRow cy g)

/-- The rows of symbol `s` within `rows`, in row order. -/
def groupOf (rows : List CRow) (s : String) : List CRow :=
  rows.filter (fun r => r.symbol == s)

/-- The distinct symbols of a table. -/
def symbolsOf (rows : List CRow) : List String :=
  (rows.map (fun r => r.symbol)).dedup

/-- Concatenation of the annotated groups of the given symbols. -/
def gather (cy : Nat) (srows : List CRow) : List String → List RRow
  | [] => []
  | t :: ts => annotateGroup cy (groupOf srows t) ++ gather cy srows ts

/-- `DataProcessor.calculate_returns` (source lines 59-113): sort by
(symbol, date), then annotate each symbol group independently with
`Daily_Return`, `Cumulative_Return`, `YTD_Return`, `MA_20`,
`Volatility_20`.  `cy` is `datetime.now().year`, the processing year. -/
def calculate_returns (cy : Nat) (rows : List CRow) : List RRow :=
  let srows := rows.insertionSort rowLE
  gather cy srows (symbolsOf srows)

/-- Promote an `RRow` to an `FRow` given its final market cap. -/
def toFRow (r : RRow) (mc : ℚ) : FRow :=
  { symbol := r.symbol, date := r.date, security := r.security,
    sector := r.sector, close := r.close, volume := r.volume,
    market_cap := mc, market_cap_billions := mc / 1000000000,
    daily_return := r.daily_return,
    cumulative_return := r.cumulative_return,
    ytd_return := r.ytd_return, ma_20 := r.ma_20,
    volatility_20_sq := r.volatility_20_sq }

/-- The `Market_Cap` column after the proxy step of
`calculate_fundamentals`: if the column is absent (`hasMC = false`) or
entirely null, it is rebuilt as `Volume * Close`; otherwise it is kept. -/
def mcProxied (hasMC : Bool) (rows : List RRow) : List (Option ℚ) :=
  let mcs := rows.map (fun r => r.market_cap)
  if !hasMC || mcs.all (fun o => o.isNone)
  then rows.map (fun r => some (r.volume * r.close))
  else mcs

/-- The `Market_Cap` column after
`fillna(df['Market_Cap'].median())`: nulls replaced by the median of the
non-null cells. -/
def mcFilled (hasMC : Bool) (rows : List RRow) : List ℚ :=
  let mc1 := mcProxied hasMC rows
  let med1 := medianQ (mc1.filterMap id)
  mc1.map (fun o => o.getD med1)

/-- `DataProcessor.calculate_fundamentals` (source lines 115-144): proxy an
absent/all-null `Market_Cap` by `Volume * Close`, fill nulls with the
column median, replace non-positive values by the median of the
already-filled column, and add `Market_Cap_Billions = Market_Cap / 1e9`.
`hasMC` tells whether the input table carries a `Market_Cap` column. -/
def calculate_fundamentals (hasMC : Bool) (rows : List RRow) : List FRow :=
  let mc2 := mcFilled hasMC rows
  let med2 := medianQ mc2
  let mc3 := mc2.map (fun v => if v ≤ 0 then med2 else v)
  (rows.zip mc3).map (fun p => toFRow p.1 p.2)

/-- Placeholder processed row for total `getD` access. -/
def dummyF : FRow :=
  ⟨"", ⟨0, 0, 0⟩, "", "", 0, 0, 0, 0, none, 0, 0, 0, none⟩

/-- The pandas group key of `groupby(['Symbol', 'Period'])`, with the
period represented by its start date. -/
def pairKey (p : Period) (r : FRow) : String × Date :=
  (r.symbol, periodKey p r.date)

/-- The distinct (symbol, period) keys of a processed table. -/
def keysOf (p : Period) (rows : List FRow) : List (String × Date) :=
  (rows.map (pairKey p)).dedup

/-- The rows of one (symbol, period) group, in row order. -/
def groupAt (p : Period) (rows : List FRow) (k : String × Date) :
    List FRow :=
  rows.filter (fun r => pairKey p r == k)

/-- One output row of `aggregate_by_period`: the source's `.agg`
dictionary takes `'first'` for `Security`/`Sector`, `'last'` for `Close`,
`Market_Cap`, `Market_Cap_Billions`, `Cumulative_Return`, `YTD_Return`,
`Volatility_20`, and `'sum'` for `Volume`; the `Date` cell is then
overwritten with `Period.to_timestamp()`, the period's start. -/
def aggRowOf (k : String × Date) (g : List FRow) : ARow :=
  let fr := g.head?.getD dummyF
  let la := g.getLast?.getD dummyF
  { symbol := k.1, date := k.2,
    security := fr.security, sector := fr.sector,
    close := la.close,
    volume := (g.map (fun r => r.volume)).sum,
    market_cap := la.market_cap,
    market_cap_billions := la.market_cap_billions,
    cumulative_return := la.cumulative_return,
    ytd_return := la.ytd_return,
    volatility_20_sq := la.volatility_20_sq }

/-- `DataProcessor.aggregate_by_period` (source lines 146-184): one output
row per distinct (symbol, period) pair of the input. -/
def aggregate_by_period (p : Period) (rows : List FRow) : List ARow :=
  (keysOf p rows).map (fun k => aggRowOf k (groupAt p rows k))

/-- Two-digit zero-padded numeral, as `strftime` field `%m`. -/
def pad2 (n : Nat) : String :=
  if n < 10 then "0" ++ toString n else toString n

/-- `Date.strftime('%Y-%m')`. -/
def yearMonth (dt : Date) : String := toString dt.y ++ "-" ++ pad2 dt.m

/-- Animation row order: `anim_df.sort_values('Date')`. -/
def animLE (a b : AnimRow) : Prop := Date.le a.date b.date

instance animLE.dec : DecidableRel animLE := fun _ _ =>
  inferInstanceAs (Decidable (Date.le _ _))

instance animLE.total : IsTotal AnimRow animLE where
  total a b := Date.le_total a.date b.date

instance animLE.trans : IsTrans AnimRow animLE where
  trans _ _ _ h1 h2 := Date.le_trans h1 h2

/-- `DataProcessor.prepare_animation_data` (source lines 186-221) on a
full-schema table: aggregate, drop rows with null `YTD_Return` /
`Market_Cap` / `Close` (all three are non-null by type in the aggregated
schema, so nothing is dropped), add the `Year_Month` label, sort by date. -/
def prepare_animation_data (p : Period) (rows : List FRow) : List AnimRow :=
  ((aggregate_by_period p rows).map (fun a =>
    ⟨a.symbol, a.date, a.security, a.sector, a.close, a.volume,
     a.market_cap, a.market_cap_billions, a.cumulative_return,
     a.ytd_return, a.volatility_20_sq, yearMonth a.date⟩)).insertionSort
    animLE

/-- The rows of a processed table whose date equals `df['Date'].max()`
(every row whose date is an upper bound of all dates; by antisymmetry of
the date order all such rows carry one and the same date). -/
def latestRows (rows : List FRow) : List FRow :=
  rows.filter (fun r => rows.all (fun x => decide (Date.le x.date r.date)))

/-- pandas `mean` (with its default `skipna=True`) of the `Volatility_20`
column of a group: the cells store squared volatilities, the actual
volatility of a non-null cell is the square root of the stored value,
and the source averages those volatilities themselves — so the aggregate
is the mean of the square roots, not the mean of the squares; `none`
embeds the `NaN` mean of an all-null column. -/
noncomputable def volMeanR (cells : List (Option ℚ)) : Option ℝ :=
  let obs := cells.filterMap id
  if obs.isEmpty then none
  else some ((obs.map (fun v => Real.sqrt ((v : ℚ) : ℝ))).sum
    / (obs.length : ℝ))

/-- Sector-summary row order: `sort_values('Total_Market_Cap',
ascending=False)`. -/
def sectorGE (a b : SRow) : Prop := b.total_market_cap ≤ a.total_market_cap

instance sectorGE.dec : DecidableRel sectorGE := fun _ _ =>
  inferInstanceAs (Decidable (_ ≤ _))

instance sectorGE.total : IsTotal SRow sectorGE where
  total a b := le_total b.total_market_cap a.total_market_cap

instance sectorGE.trans : IsTrans SRow sectorGE where
  trans _ _ _ h1 h2 := le_trans h2 h1

/-- One summary row for sector `sec` built from the latest-date rows `g`
of that sector: `Symbol` count, `Market_Cap` sum, `YTD_Return` mean,
`Volatility_20` mean, plus `Total_Market_Cap / 1e9`. -/
noncomputable def sectorRowOf (sec : String) (g : List FRow) : SRow :=
  { sector := sec,
    stock_count := g.length,
    total_market_cap := (g.map (fun r => r.market_cap)).sum,
    avg_ytd_return := meanQ (g.map (fun r => r.ytd_return)),
    avg_volatility := volMeanR (g.map (fun r => r.volatility_20_sq)),
    market_cap_billions := (g.map (fun r => r.market_cap)).sum / 1000000000 }

/-- `DataProcessor.get_sector_summary` (source lines 223-255): empty when
the `Sector` column is absent; otherwise restrict to the latest date,
group by sector, aggregate, and sort descending by total market cap. -/
noncomputable def get_sector_summary (hasSector : Bool) (rows : List FRow) : List SRow :=
  if !hasSector then []
  else
    let lr := latestRows rows
    (((lr.map (fun r => r.sector)).dedup).map (fun sec =>
      sectorRowOf sec (lr.filter (fun r => r.sector == sec)))).insertionSort
      sectorGE

/-- `DataProcessor.process_complete_pipeline` (source lines 257-303):
clean; on an empty cleaned table return the "no data" signal (`none`, the
source's `return None`); otherwise compute returns and fundamentals and
return the processed, animation and sector-summary tables together. -/
noncomputable def process_complete_pipeline (cy : Nat) (hasMC : Bool) (p : Period)
    (raw : List RawRow) :
    Option (List FRow × List AnimRow × List SRow) :=
  let cleaned := clean_data raw
  if cleaned.isEmpty then none
  else
    let processed := calculate_fundamentals hasMC (calculate_returns cy cleaned)
    some (processed,
          prepare_animation_data p processed,
          get_sector_summary true processed)

/-- Presence flags for the DataFrame columns that
`aggregate_by_period` / `prepare_animation_data` reference by name.
A pandas DataFrame may simply lack a column; the typed rows above model
the cell values, this record models which columns exist. -/
structure Cols where
  date : Bool
  symbol : Bool
  security : Bool
  sector : Bool
  close : Bool
  volume : Bool
  market_cap : Bool
  market_cap_billions : Bool
  cumulative_return : Bool
  ytd_return : Bool
  volatility_20 : Bool
deriving DecidableEq, Repr

/-- All columns present. -/
def Cols.full : Cols :=
  ⟨true, true, true, true, true, true, true, true, true, true, true⟩

/-- Column-aware `aggregate_by_period`: `df['Date'].dt.to_period` and the
`.agg` dictionary reference all eleven columns by name, and pandas raises
a `KeyError` as soon as one is absent. -/
def aggregate_by_period_checked (c : Cols) (p : Period)
    (rows : List FRow) : Except String (List ARow) :=
  if c.date && c.symbol && c.security && c.sector && c.close && c.volume &&
     c.market_cap && c.market_cap_billions && c.cumulative_return &&
     c.ytd_return && c.volatility_20
  then Except.ok (aggregate_by_period p rows)
  else Except.error "KeyError"

/-- Column-aware `prepare_animation_data` (source lines 186-221): the
aggregation runs FIRST (line 200); only afterwards (lines 206-208) does
the code look for missing required columns and print a warning.  The
returned Boolean is that warning flag; the aggregated frame always carries
every required column, so on the non-exceptional path it is `false`. -/
def prepare_animation_data_checked (c : Cols) (p : Period)
    (rows : List FRow) : Except String (Bool × List AnimRow) :=
  match aggregate_by_period_checked c p rows with
  | Except.error e => Except.error e
  | Except.ok agg =>
      let warn := false
      Except.ok (warn,
        (agg.map (fun a =>
          ⟨a.symbol, a.date, a.security, a.sector, a.close, a.volume,
           a.market_cap, a.market_cap_billions, a.cumulative_return,
           a.ytd_return, a.volatility_20_sq,
           yearMonth a.date⟩)).insertionSort animLE)

/-- Re-embed a cleaned row as a raw row (every nullable cell present):
feeding the Cleaner's output back to the Cleaner. -/
def toRaw (r : CRow) : RawRow :=
  ⟨some r.symbol, some r.date, r.security, some r.sector, some r.close,
   r.volume, r.market_cap⟩

/-- Row count of symbol `s` in the output of `aggregate_by_period p`:
the number of distinct periods among the symbol's dates. -/
def aggCount (p : Period) (rows : List FRow) (s : String) : Nat :=
  (((rows.filter (fun r => r.symbol == s)).map
      (fun r => periodKey p r.date)).dedup).length

/-- Build a cleaned row with fixed descriptive fields (concrete tables). -/
def mkC (sym : String) (dt : Date) (cl : ℚ) : CRow :=
  ⟨sym, dt, "Sec", "Tech", cl, 100, some 1000⟩

/-- Scenario A of the specification: two symbols, three trading days each,
identical closes 100, 110, 121. -/
def scenarioA : List CRow :=
  [mkC "A" ⟨2025, 1, 2⟩ 100, mkC "A" ⟨2025, 1, 3⟩ 110,
   mkC "A" ⟨2025, 1, 6⟩ 121,
   mkC "B" ⟨2025, 1, 2⟩ 100, mkC "B" ⟨2025, 1, 3⟩ 110,
   mkC "B" ⟨2025, 1, 6⟩ 121]

/-- Scenario B of the specification: a symbol whose only record is dated
before January 1 of the processing year (2025). -/
def scenarioB : List CRow := [mkC "A" ⟨2024, 5, 6⟩ 100]

/-- A one-observation table: the failing input of the volatility claim. -/
def singleObs : List CRow := [mkC "A" ⟨2025, 1, 2⟩ 100]

/-- Build a returns-annotated row with the fields `calculate_fundamentals`
reads (concrete tables). -/
def mkR (mc : Option ℚ) (vol cl : ℚ) : RRow :=
  ⟨"A", ⟨2024, 1, 1⟩, "Sec", "Tech", cl, vol, mc, none, 0, 0, cl, none⟩

/-- A table whose only market cap is negative: the median is negative, so
the non-positive-replacement step replaces nothing with a positive value. -/
def negMarketCap : List RRow := [mkR (some (-1)) 10 5]

/-- A table whose market caps are positive: the positive-median witness. -/
def posMarketCap : List RRow := [mkR (some 5) 10 5]

/-- Build a processed row with fixed metric fields (concrete tables). -/
def mkF (sym : String) (dt : Date) (sec : String) (cl vol : ℚ) : FRow :=
  ⟨sym, dt, "Sec", sec, cl, vol, 100, 1, none, 0, 0, cl, none⟩

/-- Two rows of one symbol in one month whose sectors differ: the sector
of the aggregated row comes from the FIRST row, not the max-date row. -/
def twoSectorMonth : List FRow :=
  [mkF "A" ⟨2024, 3, 4⟩ "X" 10 1, mkF "A" ⟨2024, 3, 18⟩ "Y" 20 2]

/-- Two consecutive calendar days that share a pandas 'W-SUN' week
(Monday 2022-01-31 and Tuesday 2022-02-01) but lie in different months:
monthly aggregation yields MORE rows than weekly aggregation. -/
def monthStraddle : List FRow :=
  [mkF "A" ⟨2022, 1, 31⟩ "X" 10 1, mkF "A" ⟨2022, 2, 1⟩ "X" 20 2]

/-- Build a processed row for the sector-summary scenario. -/
def mkD (sym : String) (mc ytd : ℚ) : FRow :=
  ⟨sym, ⟨2025, 6, 2⟩, "Sec", "Tech", 10, 5, mc, mc / 1000000000, none, 0,
   ytd, 10, some 4⟩

/-- Scenario D of the specification: one sector, two symbols with market
caps 3e9 and 5e9 and YTD returns 10 and 20, on the (single) latest date. -/
def scenarioD : List FRow :=
  [mkD "AAA" 3000000000 10, mkD "BBB" 5000000000 20]

/-- Scenario C of the specification: a raw table whose rows all have a
null `Close`. -/
def scenarioC : List RawRow :=
  [⟨some "A", some ⟨2024, 1, 1⟩, "Sec", some "Tech", none, 50, some 7⟩,
   ⟨some "B", some ⟨2024, 1, 2⟩, "Sec", some "Tech", none, 60, some 8⟩]

/-- A raw table with one fully-populated row (the non-empty pipeline
witness). -/
def oneGoodRow : List RawRow :=
  [⟨some "A", some ⟨2024, 1, 1⟩, "Sec", some "Tech", some 5, 50, some 7⟩]

/-- Placeholder summary row for total `getD` access. -/
def dummyS : SRow := ⟨"", 0, 0, 0, none, 0⟩

/-- Column flags with the `Security` column absent. -/
def colsNoSecurity : Cols :=
  ⟨true, true, false, true, true, true, true, true, true, true, true⟩


theorem keepLast_sublist (l : List CRow) : List.Sublist (keepLast l) l := by
  induction l with
  | nil => simp [keepLast]
  | cons r rest ih =>
    unfold keepLast
    by_cases h : rest.any (fun x => cleanKey x == cleanKey r) = true
    · simp only [h, if_true, List.nil_append]
      exact ih.cons r
    · simp only [h, if_false, List.singleton_append]
      exact ih.cons₂ r

theorem keepLast_keys_nodup (l : List CRow) :
    ((keepLast l).map cleanKey).Nodup := by
  induction l with
  | nil => simp [keepLast]
  | cons r rest ih =>
    unfold keepLast
    by_cases h : rest.any (fun x => cleanKey x == cleanKey r) = true
    · rw [if_pos h, List.nil_append]
      exact ih
    · rw [if_neg h, List.singleton_append]
      simp only [List.map_cons, List.nodup_cons]
      refine ⟨fun hmem => ?_, ih⟩
      rcases List.mem_map.mp hmem with ⟨x, hx, hkey⟩
      have hxr : x ∈ rest := (keepLast_sublist rest).mem hx
      exact h (List.any_eq_true.mpr ⟨x, hxr, beq_iff_eq.mpr hkey⟩)

theorem keepLast_eq_self {l : List CRow} (h : (l.map cleanKey).Nodup) :
    keepLast l = l := by
  induction l with
  | nil => rfl
  | cons r rest ih =>
    simp only [List.map_cons, List.nodup_cons] at h
    have hany : ¬(rest.any (fun x => cleanKey x == cleanKey r) = true) := by
      intro hx
      rcases List.any_eq_true.mp hx with ⟨x, hxm, hxk⟩
      exact h.1 (List.mem_map.mpr ⟨x, hxm, beq_iff_eq.mp hxk⟩)
    unfold keepLast
    rw [if_neg hany, List.singleton_append, ih h.2]

theorem mem_keepLast {l : List CRow} {r : CRow} :
    r ∈ keepLast l ↔
      (l.filter (fun x => cleanKey x == cleanKey r)).getLast? = some r := by
  induction l with
  | nil => simp [keepLast]
  | cons a rest ih =>
    unfold keepLast
    by_cases hk : cleanKey a = cleanKey r
    · by_cases h : rest.any (fun x => cleanKey x == cleanKey a) = true
      · -- a duplicate of a's key occurs later: a is dropped, and the
        -- filtered list keeps a non-empty tail, so a is not its last
        rcases List.any_eq_true.mp h with ⟨w, hw, hwk⟩
        have hwk' : cleanKey w = cleanKey a := beq_iff_eq.mp hwk
        have hfilter_ne :
            rest.filter (fun x => cleanKey x == cleanKey r) ≠ [] := by
          intro hnil
          have := List.filter_eq_nil_iff.mp hnil w hw
          simp only [beq_iff_eq] at this
          exact this (hwk'.trans hk)
        rw [if_pos h, List.nil_append, ih,
          List.filter_cons_of_pos (by simpa only [beq_iff_eq] using hk)]
        rcases List.exists_cons_of_ne_nil hfilter_ne with ⟨b, t, hbt⟩
        rw [hbt, List.getLast?_cons_cons]
      · -- no later duplicate of a's key: a is kept, and no row of rest
        -- has r's key, so the filtered list is exactly [a]
        have hrest : rest.filter (fun x => cleanKey x == cleanKey r) = [] := by
          rw [List.filter_eq_nil_iff]
          intro x hx
          simp only [beq_iff_eq]
          intro hxk
          exact h (List.any_eq_true.mpr
            ⟨x, hx, beq_iff_eq.mpr (hxk.trans hk.symm)⟩)
        rw [if_neg h, List.singleton_append,
          List.filter_cons_of_pos (by simpa only [beq_iff_eq] using hk),
          hrest, List.getLast?_singleton]
        simp only [List.mem_cons]
        constructor
        · rintro (rfl | hmem)
          · rfl
          · have hbeq : (cleanKey r == cleanKey a) = true :=
              beq_iff_eq.mpr hk.symm
            exact absurd
              (List.any_eq_true.mpr
                ⟨r, (keepLast_sublist rest).mem hmem, hbeq⟩)
              h
        · intro hsome
          exact Or.inl (Option.some_inj.mp hsome).symm
    · -- a's key differs from r's: a contributes nothing either way
      have hfilter : (a :: rest).filter (fun x => cleanKey x == cleanKey r)
          = rest.filter (fun x => cleanKey x == cleanKey r) :=
        List.filter_cons_of_neg (by simpa only [beq_iff_eq] using hk)
      by_cases h : rest.any (fun x => cleanKey x == cleanKey a) = true
      · rw [if_pos h, List.nil_append, ih, hfilter]
      · rw [if_neg h, List.singleton_append, hfilter, ← ih]
        simp only [List.mem_cons]
        constructor
        · rintro (rfl | hmem)
          · exact absurd rfl hk
          · exact hmem
        · exact Or.inr

theorem keptRows_map_toRaw (l : List CRow) :
    keptRows (l.map toRaw) = l := by
  induction l with
  | nil => rfl
  | cons r rest ih =>
    simp only [List.map_cons, keptRows, List.filterMap_cons]
    unfold keptRows at ih
    rw [ih]
    rfl

theorem clean_data_perm (raw : List RawRow) :
    List.Perm (clean_data raw) (keepLast (keptRows raw)) :=
  List.perm_insertionSort rowLE (keepLast (keptRows raw))

theorem clean_data_keys_nodup (raw : List RawRow) :
    ((clean_data raw).map cleanKey).Nodup :=
  (((clean_data_perm raw).map cleanKey).nodup_iff).mpr
    (keepLast_keys_nodup (keptRows raw))

theorem clean_data_sorted (raw : List RawRow) :
    List.Sorted rowLE (clean_data raw) :=
  List.sorted_insertionSort rowLE (keepLast (keptRows raw))

/-- **C4.**  For every raw input table, the Cleaner's output has pairwise
distinct (symbol, date) keys (no row with a null symbol, date or close
survives the typed `keptRows` step, and null sectors are replaced by
"Unknown" there); a row is in the output exactly when it is the last
occurrence of its (symbol, date) key, in original input order, among the
rows that survive the null-check; the output is sorted by symbol
ascending then date ascending; and running the Cleaner again on its own
output returns the output unchanged. -/
theorem C4_cleaner (raw : List RawRow) :
    ((clean_data raw).map cleanKey).Nodup ∧
    List.Sorted rowLE (clean_data raw) ∧
    (∀ r : CRow, r ∈ clean_data raw ↔
      ((keptRows raw).filter
        (fun x => cleanKey x == cleanKey r)).getLast? = some r) ∧
    clean_data ((clean_data raw).map toRaw) = clean_data raw := by
  refine ⟨clean_data_keys_nodup raw, clean_data_sorted raw, fun r => ?_, ?_⟩
  · rw [← mem_keepLast]
    exact (clean_data_perm raw).mem_iff
  · show List.insertionSort rowLE
        (keepLast (keptRows ((clean_data raw).map toRaw))) = clean_data raw
    rw [keptRows_map_toRaw, keepLast_eq_self (clean_data_keys_nodup raw)]
    exact (clean_data_sorted raw).insertionSort_eq

theorem annotateGroup_length (cy : Nat) (g : List CRow) :
    (annotateGroup cy g).length = g.length := by
  simp [annotateGroup]

theorem annotateGroup_getD {cy : Nat} {g : List CRow} {i : Nat}
    (h : i < g.length) :
    (annotateGroup cy g).getD i dummyR = annotRow cy g i := by
  unfold annotateGroup
  rw [List.getD_eq_getElem _ _ (by simpa using h), List.getElem_map,
    List.getElem_range]

theorem mem_annotateGroup_symbol {cy : Nat} {srows : List CRow} {t : String}
    {r : RRow} (h : r ∈ annotateGroup cy (groupOf srows t)) :
    r.symbol = t := by
  unfold annotateGroup at h
  rcases List.mem_map.mp h with ⟨i, hi, rfl⟩
  have hi2 : i < (groupOf srows t).length := List.mem_range.mp hi
  show ((groupOf srows t).getD i dummyC).symbol = t
  rw [List.getD_eq_getElem _ _ hi2]
  have hmem : (groupOf srows t)[i] ∈ groupOf srows t := List.getElem_mem hi2
  have := List.mem_filter.mp hmem
  exact beq_iff_eq.mp this.2

theorem filter_gather (cy : Nat) (srows : List CRow) (s : String)
    (L : List String) (hnd : L.Nodup) :
    (gather cy srows L).filter (fun r => r.symbol == s)
      = if s ∈ L then annotateGroup cy (groupOf srows s) else [] := by
  induction L with
  | nil => simp [gather]
  | cons t ts ih =>
    simp only [List.nodup_cons] at hnd
    unfold gather
    rw [List.filter_append, ih hnd.2]
    by_cases hts : s = t
    · subst hts
      have h1 : (annotateGroup cy (groupOf srows s)).filter
          (fun r => r.symbol == s) = annotateGroup cy (groupOf srows s) :=
        List.filter_eq_self.mpr (fun r hr =>
          beq_iff_eq.mpr (mem_annotateGroup_symbol hr))
      rw [h1, if_neg hnd.1, List.append_nil, if_pos (List.mem_cons_self s ts)]
    · have h1 : (annotateGroup cy (groupOf srows t)).filter
          (fun r => r.symbol == s) = [] :=
        List.filter_eq_nil_iff.mpr (fun r hr => by
          simp only [beq_iff_eq]
          rw [mem_annotateGroup_symbol hr]
          exact fun he => hts he.symm)
      rw [h1, List.nil_append]
      by_cases hmem : s ∈ ts
      · rw [if_pos hmem, if_pos (List.mem_cons_of_mem t hmem)]
      · rw [if_neg hmem, if_neg (by
          simp only [List.mem_cons]
          rintro (rfl | hc)
          · exact hts rfl
          · exact hmem hc)]

theorem symbolsOf_nodup (rows : List CRow) : (symbolsOf rows).Nodup :=
  List.nodup_dedup _

theorem calc_returns_filter (cy : Nat) (rows : List CRow) (s : String) :
    (calculate_returns cy rows).filter (fun r => r.symbol == s)
      = annotateGroup cy (groupOf (rows.insertionSort rowLE) s) := by
  show (gather cy (rows.insertionSort rowLE)
      (symbolsOf (rows.insertionSort rowLE))).filter (fun r => r.symbol == s)
    = annotateGroup cy (groupOf (rows.insertionSort rowLE) s)
  rw [filter_gather cy _ s _ (symbolsOf_nodup _)]
  by_cases h : s ∈ symbolsOf (rows.insertionSort rowLE)
  · rw [if_pos h]
  · rw [if_neg h]
    have hg : groupOf (rows.insertionSort rowLE) s = [] := by
      rw [groupOf, List.filter_eq_nil_iff]
      intro x hx
      simp only [beq_iff_eq]
      intro hxs
      exact h (List.mem_dedup.mpr (List.mem_map.mpr ⟨x, hx, hxs⟩))
    rw [hg]
    rfl

/-- **C1.**  In the output of `calculate_returns`, the rows of symbol `s`
(the symbol's group, date-ascending) carry
`daily_return[i] = close[i]/close[i-1] - 1` with `daily_return` null at
the group's first row, and
`cumulative_return[i] = (close[i]/close[0] - 1) * 100` against the
group's first close; no value leaks across symbol boundaries. -/
theorem C1_daily_and_cumulative_returns (cy : Nat) (rows : List CRow)
    (s : String) (i : Nat)
    (h : i < ((calculate_returns cy rows).filter
        (fun r => r.symbol == s)).length) :
    (((calculate_returns cy rows).filter
        (fun r => r.symbol == s)).getD i dummyR).daily_return
      = (if i = 0 then none
         else some (((groupOf (rows.insertionSort rowLE) s).map
              (fun r => r.close)).getD i 0
            / ((groupOf (rows.insertionSort rowLE) s).map
              (fun r => r.close)).getD (i - 1) 0 - 1))
    ∧ (((calculate_returns cy rows).filter
        (fun r => r.symbol == s)).getD i dummyR).cumulative_return
      = (((groupOf (rows.insertionSort rowLE) s).map
            (fun r => r.close)).getD i 0
          / ((groupOf (rows.insertionSort rowLE) s).map
            (fun r => r.close)).getD 0 0 - 1) * 100 := by
  have h2 : i < (groupOf (rows.insertionSort rowLE) s).length := by
    rw [calc_returns_filter, annotateGroup_length] at h
    exact h
  rw [calc_returns_filter, annotateGroup_getD h2]
  exact ⟨rfl, rfl⟩

/-- Scenario A instance of C1: closes `[100, 110, 121]`, row `i = 2` of
symbol "B" has daily return `0.10` and cumulative return `21`; row
`i = 0` (checked through the same theorem at index 0) has null daily
return and cumulative return 0. -/
theorem C1_witness :
    (((calculate_returns 2025 scenarioA).filter
        (fun r => r.symbol == "B")).getD 2 dummyR).daily_return
        = some (1 / 10)
    ∧ (((calculate_returns 2025 scenarioA).filter
        (fun r => r.symbol == "B")).getD 2 dummyR).cumulative_return = 21
    ∧ (((calculate_returns 2025 scenarioA).filter
        (fun r => r.symbol == "B")).getD 0 dummyR).daily_return = none
    ∧ (((calculate_returns 2025 scenarioA).filter
        (fun r => r.symbol == "B")).getD 0 dummyR).cumulative_return = 0 := by
  have h2 := C1_daily_and_cumulative_returns 2025 scenarioA "B" 2
    (by decide)
  have h0 := C1_daily_and_cumulative_returns 2025 scenarioA "B" 0
    (by decide)
  refine ⟨h2.1.trans (by decide), h2.2.trans (by decide),
    h0.1.trans (by decide), h0.2.trans (by decide)⟩

/-- **C2.**  YTD returns per symbol group: if some row of the group is
dated on or after January 1 of the processing year `cy`, then with `b`
the first such row, every row `i` of the group (also rows dated earlier)
gets `ytd_return[i] = (close[i]/b.close - 1) * 100`; if no row of the
group lies in the current year, `ytd_return` equals `cumulative_return`
on every row of the group. -/
theorem C2_ytd_return (cy : Nat) (rows : List CRow) (s : String) (i : Nat)
    (h : i < ((calculate_returns cy rows).filter
        (fun r => r.symbol == s)).length) :
    (∀ b : CRow,
      ((groupOf (rows.insertionSort rowLE) s).filter
          (fun r => decide (Date.le ⟨cy, 1, 1⟩ r.date))).head? = some b →
      (((calculate_returns cy rows).filter
          (fun r => r.symbol == s)).getD i dummyR).ytd_return
        = (((groupOf (rows.insertionSort rowLE) s).map
              (fun r => r.close)).getD i 0 / b.close - 1) * 100)
    ∧ (((groupOf (rows.insertionSort rowLE) s).filter
          (fun r => decide (Date.le ⟨cy, 1, 1⟩ r.date))).head? = none →
      (((calculate_returns cy rows).filter
          (fun r => r.symbol == s)).getD i dummyR).ytd_return
        = (((calculate_returns cy rows).filter
          (fun r => r.symbol == s)).getD i dummyR).cumulative_return) := by
  have h2 : i < (groupOf (rows.insertionSort rowLE) s).length := by
    rw [calc_returns_filter, annotateGroup_length] at h
    exact h
  rw [calc_returns_filter, annotateGroup_getD h2]
  constructor
  · intro b hb
    show ytdAt cy (groupOf (rows.insertionSort rowLE) s) _ i = _
    unfold ytdAt ytdBase
    rw [hb]
    rfl
  · intro hnone
    show ytdAt cy (groupOf (rows.insertionSort rowLE) s) _ i = _
    unfold ytdAt ytdBase
    rw [hnone]
    rfl

/-- Scenario B instance of C2: the symbol's only record (close 100) is
dated 2024-05-06, before January 1 of the processing year 2025, so its
`ytd_return` equals its `cumulative_return`. -/
theorem C2_witness :
    (((calculate_returns 2025 scenarioB).filter
        (fun r => r.symbol == "A")).getD 0 dummyR).ytd_return
      = (((calculate_returns 2025 scenarioB).filter
        (fun r => r.symbol == "A")).getD 0 dummyR).cumulative_return :=
  (C2_ytd_return 2025 scenarioB "A" 0 (by decide)).2 (by decide)

/-- **C3** (code defect).  The claim — and the repository's own unit test
`test_calculate_returns_adds_volatility`, which asserts
`(result['Volatility_20'] >= 0).all()` — say a window with fewer than 2
observations yields volatility `0`, so a single-observation symbol gets
`volatility_20 = 0`.  The code's
`rolling(window=20, min_periods=1).std()` has `ddof = 1` and therefore
yields `NaN` (null), not `0`, whenever the trailing window holds fewer
than 2 non-null daily returns: on the one-row table the volatility column
is `[null]`, not `[0]`, and the `≥ 0` comparison fails on that row. -/
theorem C3_single_observation_volatility_null :
    ((calculate_returns 2025 singleObs).map
        (fun r => r.volatility_20_sq)) = [none]
    ∧ (none : Option ℚ) ≠ some 0 :=
  ⟨by decide, by decide⟩

/-- **C5.**  The orchestrator: an empty cleaned table produces the "no
data" signal (`none`, the source's `return None`) and no output tables;
a non-empty cleaned table produces all three outputs — processed,
animation and sector summary — together.  No outcome yields only some of
the three. -/
theorem C5_pipeline (cy : Nat) (hasMC : Bool) (p : Period)
    (raw : List RawRow) :
    (clean_data raw = [] →
      process_complete_pipeline cy hasMC p raw = none)
    ∧ (clean_data raw ≠ [] →
      process_complete_pipeline cy hasMC p raw
        = some (calculate_fundamentals hasMC
                  (calculate_returns cy (clean_data raw)),
                prepare_animation_data p
                  (calculate_fundamentals hasMC
                    (calculate_returns cy (clean_data raw))),
                get_sector_summary true
                  (calculate_fundamentals hasMC
                    (calculate_returns cy (clean_data raw))))) := by
  constructor
  · intro h
    simp [process_complete_pipeline, h]
  · intro h
    simp [process_complete_pipeline, h]

/-- Scenario C instance of C5 (and the all-outputs case): a raw table
whose rows all lack `Close` cleans to the empty table and yields the "no
data" signal, not an exception; a table with one complete row yields all
three outputs. -/
theorem C5_witness :
    process_complete_pipeline 2025 true Period.M scenarioC = none
    ∧ process_complete_pipeline 2025 true Period.M oneGoodRow
        = some (calculate_fundamentals true
                  (calculate_returns 2025 (clean_data oneGoodRow)),
                prepare_animation_data Period.M
                  (calculate_fundamentals true
                    (calculate_returns 2025 (clean_data oneGoodRow))),
                get_sector_summary true
                  (calculate_fundamentals true
                    (calculate_returns 2025 (clean_data oneGoodRow)))) :=
  ⟨(C5_pipeline 2025 true Period.M scenarioC).1 (by decide),
   (C5_pipeline 2025 true Period.M oneGoodRow).2 (by decide)⟩

/-- **C6** (counterexample).  The claim says every descriptive field,
`sector` included, comes from the group's maximum-date row.  On a
one-month group whose two rows carry sectors "X" (2024-03-04) then "Y"
(2024-03-18), the source's `.agg` takes `'first'` for `Security`/`Sector`:
the aggregated sector is "X", while the maximum-date row's sector is "Y". -/
theorem C6_counterexample :
    ((aggregate_by_period Period.M twoSectorMonth).map
        (fun a => a.sector)) = ["X"]
    ∧ (twoSectorMonth.getLast?.map (fun r => r.sector)) = some "Y"
    ∧ ("X" : String) ≠ "Y" :=
  ⟨by decide, by decide, by decide⟩

theorem filter_map_of_unique {α β : Type} (f : α → β) (q : β → Bool)
    {L : List α} {k : α} (hnd : L.Nodup) (hk : k ∈ L)
    (hq : ∀ x ∈ L, (q (f x) = true ↔ x = k)) :
    (L.map f).filter q = [f k] := by
  induction L with
  | nil => cases hk
  | cons a t ih =>
    simp only [List.nodup_cons] at hnd
    rcases List.mem_cons.mp hk with rfl | hkt
    · have hqa : q (f k) = true :=
        (hq k (List.mem_cons_self k t)).mpr rfl
      have hrest : (t.map f).filter q = [] := by
        rw [List.filter_eq_nil_iff]
        intro b hb
        rcases List.mem_map.mp hb with ⟨x, hx, rfl⟩
        intro hqx
        exact hnd.1 (((hq x (List.mem_cons_of_mem k hx)).mp hqx) ▸ hx)
      rw [List.map_cons, List.filter_cons_of_pos hqa, hrest]
    · have hak : a ≠ k := fun he => hnd.1 (he ▸ hkt)
      have hqa : ¬(q (f a) = true) := fun hqx =>
        hak ((hq a (List.mem_cons_self a t)).mp hqx)
      rw [List.map_cons, List.filter_cons_of_neg hqa]
      exact ih hnd.2 hkt (fun x hx => hq x (List.mem_cons_of_mem a hx))

/-- **C6** (amended).  `aggregate_by_period` produces exactly one row per
distinct (symbol, period-key) pair occurring in the input; in that row
`volume` is the sum over the group, `close`, the market-cap fields and
the return metrics (`cumulative_return`, `ytd_return`, `volatility_20`)
come from the group's LAST row (the maximum-date row for a date-sorted
table), while `security` and `sector` come from the group's FIRST row —
not the maximum-date row — and `date` is the period-key's timestamp.
`daily_return` and `ma_20` are dropped, so not every ProcessedRecord
metric field is retained. -/
theorem C6_amended_aggregate (p : Period) (rows : List FRow)
    (k : String × Date) (hk : k ∈ keysOf p rows) :
    (keysOf p rows).Nodup
    ∧ (aggregate_by_period p rows).length = (keysOf p rows).length
    ∧ (∀ k2 : String × Date,
        k2 ∈ keysOf p rows ↔ ∃ r ∈ rows, pairKey p r = k2)
    ∧ groupAt p rows k ≠ []
    ∧ (aggregate_by_period p rows).filter
        (fun a => a.symbol == k.1 && a.date == k.2)
        = [aggRowOf k (groupAt p rows k)]
    ∧ aggRowOf k (groupAt p rows k)
        = { symbol := k.1, date := k.2,
            security := ((groupAt p rows k).head?.getD dummyF).security,
            sector := ((groupAt p rows k).head?.getD dummyF).sector,
            close := ((groupAt p rows k).getLast?.getD dummyF).close,
            volume := ((groupAt p rows k).map (fun r => r.volume)).sum,
            market_cap :=
              ((groupAt p rows k).getLast?.getD dummyF).market_cap,
            market_cap_billions :=
              ((groupAt p rows k).getLast?.getD dummyF).market_cap_billions,
            cumulative_return :=
              ((groupAt p rows k).getLast?.getD dummyF).cumulative_return,
            ytd_return :=
              ((groupAt p rows k).getLast?.getD dummyF).ytd_return,
            volatility_20_sq :=
              ((groupAt p rows k).getLast?.getD dummyF).volatility_20_sq } := by
  refine ⟨List.nodup_dedup _, by simp [aggregate_by_period, keysOf], ?_,
    ?_, ?_, rfl⟩
  · intro k2
    unfold keysOf
    rw [List.mem_dedup, List.mem_map]
  · unfold keysOf at hk
    rcases List.mem_map.mp (List.mem_dedup.mp hk) with ⟨r, hr, rfl⟩
    intro hnil
    have : r ∈ groupAt p rows (pairKey p r) :=
      List.mem_filter.mpr ⟨hr, beq_iff_eq.mpr rfl⟩
    rw [hnil] at this
    cases this
  · unfold aggregate_by_period
    refine filter_map_of_unique _ _ (List.nodup_dedup _) hk ?_
    intro x hx
    show ((aggRowOf x (groupAt p rows x)).symbol == k.1
        && (aggRowOf x (groupAt p rows x)).date == k.2) = true ↔ x = k
    have hsym : (aggRowOf x (groupAt p rows x)).symbol = x.1 := rfl
    have hdt : (aggRowOf x (groupAt p rows x)).date = x.2 := rfl
    rw [hsym, hdt, Bool.and_eq_true, beq_iff_eq, beq_iff_eq]
    constructor
    · rintro ⟨h1, h2⟩
      exact Prod.ext h1 h2
    · rintro rfl
      exact ⟨rfl, rfl⟩

/-- Concrete instance of the amended C6 on the two-sector month group:
one output row, with summed volume 3, close 20 from the last row, and
sector "X" from the first row. -/
theorem C6_witness :
    (aggregate_by_period Period.M twoSectorMonth).filter
        (fun a => a.symbol == "A" && a.date == (⟨2024, 3, 1⟩ : Date))
      = [aggRowOf ("A", ⟨2024, 3, 1⟩)
          (groupAt Period.M twoSectorMonth ("A", ⟨2024, 3, 1⟩))]
    ∧ (aggRowOf ("A", ⟨2024, 3, 1⟩)
        (groupAt Period.M twoSectorMonth ("A", ⟨2024, 3, 1⟩))).volume = 3
    ∧ (aggRowOf ("A", ⟨2024, 3, 1⟩)
        (groupAt Period.M twoSectorMonth ("A", ⟨2024, 3, 1⟩))).sector
        = "X" := by
  have h := C6_amended_aggregate Period.M twoSectorMonth
    ("A", ⟨2024, 3, 1⟩) (by decide)
  exact ⟨h.2.2.2.2.1, by decide, by decide⟩

/-- **C7.**  For a processed table with a sector column whose latest-date
rows carry pairwise distinct symbols (the invariant the Cleaner
establishes), the summary is computed over the latest-date rows only:
each summary row's `stock_count` is the number of distinct symbols of its
sector there, `total_market_cap` the sum of `market_cap`,
`avg_ytd_return` the mean of `ytd_return`, and `avg_volatility` the
skip-null mean of the actual volatilities — the square roots of the
stored squared values; the output is sorted descending by total market
cap,
a sector appears in the output exactly when it appears among the
latest-date rows, and an absent sector column yields the empty table
rather than an error. -/
theorem C7_sector_summary (rows : List FRow)
    (hnd : ((latestRows rows).map (fun r => r.symbol)).Nodup) :
    get_sector_summary false rows = []
    ∧ List.Sorted sectorGE (get_sector_summary true rows)
    ∧ (∀ sec : String,
        (∃ srow ∈ get_sector_summary true rows, srow.sector = sec)
          ↔ sec ∈ (latestRows rows).map (fun r => r.sector))
    ∧ (∀ srow ∈ get_sector_summary true rows,
        srow.stock_count
            = (((latestRows rows).filter
                (fun r => r.sector == srow.sector)).map
                (fun r => r.symbol)).dedup.length
        ∧ srow.total_market_cap
            = (((latestRows rows).filter
                (fun r => r.sector == srow.sector)).map
                (fun r => r.market_cap)).sum
        ∧ srow.avg_ytd_return
            = meanQ (((latestRows rows).filter
                (fun r => r.sector == srow.sector)).map
                (fun r => r.ytd_return))
        ∧ srow.avg_volatility
            = (if ((((latestRows rows).filter
                  (fun r => r.sector == srow.sector)).map
                  (fun r => r.volatility_20_sq)).filterMap id).isEmpty
               then none
               else some (((((((latestRows rows).filter
                      (fun r => r.sector == srow.sector)).map
                      (fun r => r.volatility_20_sq)).filterMap id)).map
                      (fun v => Real.sqrt ((v : ℚ) : ℝ))).sum
                  / (((((latestRows rows).filter
                      (fun r => r.sector == srow.sector)).map
                      (fun r => r.volatility_20_sq)).filterMap id).length
                    : ℝ)))
        ∧ srow.market_cap_billions
            = srow.total_market_cap / 1000000000) := by
  have hsummary : get_sector_summary true rows
      = (((latestRows rows).map (fun r => r.sector)).dedup.map (fun sec =>
          sectorRowOf sec ((latestRows rows).filter
            (fun r => r.sector == sec)))).insertionSort sectorGE := rfl
  refine ⟨rfl, List.sorted_insertionSort _ _, ?_, ?_⟩
  · intro sec
    constructor
    · rintro ⟨srow, hs, rfl⟩
      rw [hsummary, List.mem_insertionSort] at hs
      rcases List.mem_map.mp hs with ⟨sec2, hsec2, rfl⟩
      show sec2 ∈ _
      exact List.mem_dedup.mp hsec2
    · intro hsec
      refine ⟨sectorRowOf sec ((latestRows rows).filter
        (fun r => r.sector == sec)), ?_, rfl⟩
      rw [hsummary, List.mem_insertionSort]
      exact List.mem_map.mpr ⟨sec, List.mem_dedup.mpr hsec, rfl⟩
  · intro srow hs
    rw [hsummary, List.mem_insertionSort] at hs
    rcases List.mem_map.mp hs with ⟨sec, hsec, rfl⟩
    have hsubl : List.Sublist
        (((latestRows rows).filter (fun r => r.sector == sec)).map
          (fun r => r.symbol))
        ((latestRows rows).map (fun r => r.symbol)) :=
      List.Sublist.map (fun r => r.symbol)
        (List.filter_sublist (latestRows rows))
    have hsub := hsubl.nodup hnd
    have hsector : (sectorRowOf sec ((latestRows rows).filter
        (fun r => r.sector == sec))).sector = sec := rfl
    refine ⟨?_, rfl, rfl, rfl, rfl⟩
    rw [hsector]
    show ((latestRows rows).filter (fun r => r.sector == sec)).length = _
    rw [List.Nodup.dedup hsub, List.length_map]

/-- Scenario D instance of C7: one sector with two symbols (market caps
3e9 and 5e9, YTD returns 10 and 20) on the single latest date gives
`stock_count = 2`, `total_market_cap = 8e9`, `avg_ytd_return = 15`. -/
theorem C7_witness :
    ((get_sector_summary true scenarioD).getD 0 dummyS).stock_count = 2
    ∧ ((get_sector_summary true scenarioD).getD 0 dummyS).total_market_cap
        = 8000000000
    ∧ ((get_sector_summary true scenarioD).getD 0 dummyS).avg_ytd_return
        = 15 := by
  have h := C7_sector_summary scenarioD (by decide)
  have hlen : 0 < (get_sector_summary true scenarioD).length := by
    show 0 < (List.insertionSort sectorGE _).length
    rw [List.length_insertionSort, List.length_map]
    decide
  have hmem : (get_sector_summary true scenarioD).getD 0 dummyS
      ∈ get_sector_summary true scenarioD := by
    rw [List.getD_eq_getElem _ _ hlen]
    exact List.getElem_mem hlen
  have hf := h.2.2.2 _ hmem
  exact ⟨hf.1.trans (by decide), hf.2.1.trans (by decide),
    hf.2.2.1.trans (by decide)⟩

/-- **C8** (counterexample).  The claim says every `market_cap` is
strictly positive after the fundamentals stage.  On a table whose only
market cap is `-1`, the column median is `-1`, so the non-positive value
is "replaced" by `-1` and the output market cap is `-1`, not positive. -/
theorem C8_counterexample :
    ((calculate_fundamentals true negMarketCap).map
        (fun r => r.market_cap)) = [-1]
    ∧ ¬(0 < (-1 : ℚ)) :=
  ⟨by decide, by decide⟩

theorem mcFilled_length (hasMC : Bool) (rows : List RRow) :
    (mcFilled hasMC rows).length = rows.length := by
  unfold mcFilled mcProxied
  by_cases h : (!hasMC || (rows.map (fun r => r.market_cap)).all
      (fun o => o.isNone)) = true
  · simp [h]
  · simp [h]

/-- **C8** (amended).  `calculate_fundamentals` removes no rows; it sets
`market_cap_billions = market_cap / 1e9` on every row; row `i`'s final
market cap is the null-filled value (proxy `volume * close` when the
column is absent or entirely null, otherwise the raw value with nulls
replaced by the non-null median), with non-positive values replaced by
the median of the filled column.  Hence every output market cap is
positive OR equals that median, and when the median of the filled column
is positive every output market cap is strictly positive — but not in
general (see the counterexample). -/
theorem C8_amended_fundamentals (hasMC : Bool) (rows : List RRow) :
    (calculate_fundamentals hasMC rows).length = rows.length
    ∧ (∀ a ∈ calculate_fundamentals hasMC rows,
        a.market_cap_billions = a.market_cap / 1000000000)
    ∧ (∀ a ∈ calculate_fundamentals hasMC rows,
        0 < a.market_cap ∨ a.market_cap = medianQ (mcFilled hasMC rows))
    ∧ (0 < medianQ (mcFilled hasMC rows) →
        ∀ a ∈ calculate_fundamentals hasMC rows, 0 < a.market_cap)
    ∧ (∀ i : Nat, i < rows.length →
        (calculate_fundamentals hasMC rows).getD i dummyF
          = toFRow (rows.getD i dummyR)
              (if (mcFilled hasMC rows).getD i 0 ≤ 0
               then medianQ (mcFilled hasMC rows)
               else (mcFilled hasMC rows).getD i 0)) := by
  have hlen3 : ((mcFilled hasMC rows).map
      (fun v => if v ≤ 0 then medianQ (mcFilled hasMC rows) else v)).length
      = rows.length := by
    rw [List.length_map, mcFilled_length]
  have hout : calculate_fundamentals hasMC rows
      = (rows.zip ((mcFilled hasMC rows).map
          (fun v => if v ≤ 0 then medianQ (mcFilled hasMC rows) else v))).map
          (fun p => toFRow p.1 p.2) := rfl
  have hlen : (calculate_fundamentals hasMC rows).length = rows.length := by
    rw [hout, List.length_map, List.length_zip, hlen3, Nat.min_self]
  have hmemv : ∀ a ∈ calculate_fundamentals hasMC rows,
      0 < a.market_cap ∨ a.market_cap = medianQ (mcFilled hasMC rows) := by
    intro a ha
    rw [hout] at ha
    rcases List.mem_map.mp ha with ⟨p, hp, rfl⟩
    have hv : p.2 ∈ (mcFilled hasMC rows).map
        (fun v => if v ≤ 0 then medianQ (mcFilled hasMC rows) else v) :=
      (List.of_mem_zip hp).2
    rcases List.mem_map.mp hv with ⟨u, _, hu⟩
    show 0 < p.2 ∨ p.2 = medianQ (mcFilled hasMC rows)
    by_cases hle : u ≤ 0
    · right
      rw [← hu, if_pos hle]
    · left
      rw [← hu, if_neg hle]
      exact lt_of_not_le hle
  refine ⟨hlen, ?_, hmemv, ?_, ?_⟩
  · intro a ha
    rw [hout] at ha
    rcases List.mem_map.mp ha with ⟨p, _, rfl⟩
    rfl
  · intro hmed a ha
    rcases hmemv a ha with h | h
    · exact h
    · rw [h]
      exact hmed
  · intro i hi
    rw [hout]
    have hi2 : i < (rows.zip ((mcFilled hasMC rows).map
        (fun v => if v ≤ 0 then medianQ (mcFilled hasMC rows) else v))).length := by
      rw [List.length_zip, hlen3, Nat.min_self]
      exact hi
    rw [List.getD_eq_getElem _ _ (by simpa [List.length_map] using hi2),
      List.getElem_map, List.getElem_zip]
    rw [List.getD_eq_getElem _ _ hi,
      List.getD_eq_getElem _ _ (by rw [mcFilled_length]; exact hi),
      List.getElem_map]

/-- Positive-median instance of the amended C8: with a single positive
market cap 5, the filled-column median is 5 > 0 and the output market
cap is strictly positive. -/
theorem C8_witness :
    0 < medianQ (mcFilled true posMarketCap)
    ∧ ∀ a ∈ calculate_fundamentals true posMarketCap, 0 < a.market_cap :=
  ⟨by decide,
   (C8_amended_fundamentals true posMarketCap).2.2.2.1 (by decide)⟩

/-- **C9** (counterexample).  2022-01-31 (a Monday) and 2022-02-01 lie in
the same pandas 'W-SUN' week but in different months: weekly aggregation
gives 1 row for the symbol while monthly aggregation gives 2, so the
claimed chain `quarterly ≤ monthly ≤ weekly ≤ daily` fails at
`monthly ≤ weekly`. -/
theorem C9_counterexample :
    aggCount Period.M monthStraddle "A" = 2
    ∧ aggCount Period.W monthStraddle "A" = 1
    ∧ ¬(aggCount Period.M monthStraddle "A"
        ≤ aggCount Period.W monthStraddle "A") :=
  ⟨by decide, by decide, by decide⟩

theorem dedup_length_map_le {α β : Type} [DecidableEq α] [DecidableEq β]
    (f : α → β) (l : List α) :
    ((l.map f).dedup).length ≤ l.dedup.length := by
  induction l with
  | nil => exact Nat.le_refl 0
  | cons a t ih =>
    by_cases h : a ∈ t
    · rw [List.dedup_cons_of_mem h, List.map_cons,
        List.dedup_cons_of_mem (List.mem_map_of_mem f h)]
      exact ih
    · rw [List.dedup_cons_of_not_mem h, List.map_cons, List.length_cons]
      by_cases hf : f a ∈ t.map f
      · rw [List.dedup_cons_of_mem hf]
        exact Nat.le_succ_of_le ih
      · rw [List.dedup_cons_of_not_mem hf, List.length_cons]
        exact Nat.succ_le_succ ih

theorem dedup_length_pair {α β : Type} [DecidableEq β] (s : String)
    (g : α → β) (l : List α) :
    ((l.map (fun x => ((s, g x) : String × β))).dedup).length
      = ((l.map g).dedup).length := by
  induction l with
  | nil => rfl
  | cons a t ih =>
    by_cases h : g a ∈ t.map g
    · have h1 : ((s, g a) : String × β) ∈ t.map (fun x => (s, g x)) := by
        rcases List.mem_map.mp h with ⟨x, hx, hgx⟩
        exact List.mem_map.mpr ⟨x, hx, by rw [hgx]⟩
      rw [List.map_cons, List.map_cons, List.dedup_cons_of_mem h1,
        List.dedup_cons_of_mem h, ih]
    · have h1 : ((s, g a) : String × β) ∉ t.map (fun x => (s, g x)) := by
        intro hc
        rcases List.mem_map.mp hc with ⟨x, hx, hgx⟩
        exact h (List.mem_map.mpr ⟨x, hx, congrArg Prod.snd hgx⟩)
      rw [List.map_cons, List.map_cons, List.dedup_cons_of_not_mem h1,
        List.dedup_cons_of_not_mem h, List.length_cons, List.length_cons,
        ih]

theorem filter_dedup {α : Type} [DecidableEq α] (l : List α)
    (q : α → Bool) :
    l.dedup.filter q = (l.filter q).dedup := by
  induction l with
  | nil => rfl
  | cons a t ih =>
    by_cases hmem : a ∈ t
    · rw [List.dedup_cons_of_mem hmem]
      by_cases hq : q a = true
      · rw [List.filter_cons_of_pos hq,
          List.dedup_cons_of_mem (List.mem_filter.mpr ⟨hmem, hq⟩), ih]
      · rw [List.filter_cons_of_neg hq, ih]
    · rw [List.dedup_cons_of_not_mem hmem]
      by_cases hq : q a = true
      · rw [List.filter_cons_of_pos hq, List.filter_cons_of_pos hq,
          List.dedup_cons_of_not_mem
            (fun hc => hmem (List.mem_of_mem_filter hc)),
          ih]
      · rw [List.filter_cons_of_neg hq, List.filter_cons_of_neg hq, ih]

/-- **C9** (amended).  Per symbol, the aggregated row count (the number
of distinct period keys of the symbol's rows, which is exactly the
number of rows of that symbol in `aggregate_by_period`'s output) obeys
`quarterly ≤ monthly ≤ daily`, `weekly ≤ daily`, and `daily ≤` the
symbol's row count — but monthly and weekly counts are incomparable in
general, because 'W-SUN' weeks straddle month boundaries (see the
counterexample). -/
theorem C9_amended_monotonicity (rows : List FRow) (s : String) :
    aggCount Period.Q rows s ≤ aggCount Period.M rows s
    ∧ aggCount Period.M rows s ≤ aggCount Period.D rows s
    ∧ aggCount Period.W rows s ≤ aggCount Period.D rows s
    ∧ aggCount Period.D rows s
        ≤ (rows.filter (fun r => r.symbol == s)).length
    ∧ (∀ p : Period, (aggregate_by_period p rows).countP
        (fun a => a.symbol == s) = aggCount p rows s) := by
  refine ⟨?_, ?_, ?_, ?_, ?_⟩
  · have e : (rows.filter (fun r => r.symbol == s)).map
        (fun r => periodKey Period.Q r.date)
        = ((rows.filter (fun r => r.symbol == s)).map
            (fun r => periodKey Period.M r.date)).map
            (fun k => (⟨k.y, 3 * ((k.m - 1) / 3) + 1, 1⟩ : Date)) := by
      rw [List.map_map]
      rfl
    show ((rows.filter (fun r => r.symbol == s)).map
        (fun r => periodKey Period.Q r.date)).dedup.length ≤ _
    rw [e]
    exact dedup_length_map_le _ _
  · have e : (rows.filter (fun r => r.symbol == s)).map
        (fun r => periodKey Period.M r.date)
        = ((rows.filter (fun r => r.symbol == s)).map
            (fun r => periodKey Period.D r.date)).map
            (fun k => (⟨k.y, k.m, 1⟩ : Date)) := by
      rw [List.map_map]
      rfl
    show ((rows.filter (fun r => r.symbol == s)).map
        (fun r => periodKey Period.M r.date)).dedup.length ≤ _
    rw [e]
    exact dedup_length_map_le _ _
  · have e : (rows.filter (fun r => r.symbol == s)).map
        (fun r => periodKey Period.W r.date)
        = ((rows.filter (fun r => r.symbol == s)).map
            (fun r => periodKey Period.D r.date)).map
            (fun k => dateOfDayNumber (7 * ((k.dayNumber + 2) / 7) - 2)) := by
      rw [List.map_map]
      rfl
    show ((rows.filter (fun r => r.symbol == s)).map
        (fun r => periodKey Period.W r.date)).dedup.length ≤ _
    rw [e]
    exact dedup_length_map_le _ _
  · calc ((rows.filter (fun r => r.symbol == s)).map
        (fun r => periodKey Period.D r.date)).dedup.length
        ≤ ((rows.filter (fun r => r.symbol == s)).map
            (fun r => periodKey Period.D r.date)).length :=
          (List.dedup_sublist _).length_le
      _ = (rows.filter (fun r => r.symbol == s)).length :=
          List.length_map _ _
  · intro p
    show ((keysOf p rows).map (fun k =>
        aggRowOf k (groupAt p rows k))).countP (fun a => a.symbol == s)
        = aggCount p rows s
    rw [List.countP_map]
    show ((rows.map (pairKey p)).dedup).countP (fun k => k.1 == s) = _
    rw [List.countP_eq_length_filter, filter_dedup, List.filter_map]
    show (((rows.filter (fun r => r.symbol == s)).map
        (pairKey p)).dedup).length = _
    have e3 : (rows.filter (fun r => r.symbol == s)).map (pairKey p)
        = (rows.filter (fun r => r.symbol == s)).map
            (fun r => (s, periodKey p r.date)) :=
      List.map_congr_left (fun r hr => by
        unfold pairKey
        rw [beq_iff_eq.mp (List.mem_filter.mp hr).2])
    rw [e3, dedup_length_pair]
    rfl

/-- **C10** (code defect).  The claim — and the warning branch the source
itself carries at lines 206-208 — say the AnimationPreparer still returns
a result (with a warning) when required descriptive columns are absent.
But `prepare_animation_data` calls `aggregate_by_period` FIRST (line
200), whose `.agg` dictionary references `Security` (and the other
columns) by name, so pandas raises a `KeyError` before the warning check
is ever reached: on a table without the `Security` column the call fails
with an exception and returns no result. -/
theorem C10_missing_column_raises :
    prepare_animation_data_checked colsNoSecurity Period.M twoSectorMonth
      = Except.error "KeyError"
    ∧ (prepare_animation_data_checked colsNoSecurity Period.M
        twoSectorMonth).isOk = false :=
  ⟨rfl, rfl⟩
